import Mathlib

/-!
Verification of the Expanda wikipedia-dump extractor
(`src/expanda/ext/wiki.py`) against its specification.

Strings are modelled as lists of characters (`Str`).  The external
collaborators (the mediawiki markup parser, the nltk / kss sentence
tokenizers and the extension-option loader) are taken as parameters or
modelled from the spec, as noted on each definition.
-/

set_option maxHeartbeats 1000000

abbrev Str := List Char

/-- Python `str.strip()`: drop leading and trailing whitespace. -/
def pyStrip (s : Str) : Str :=
  ((s.dropWhile Char.isWhitespace).reverse.dropWhile Char.isWhitespace).reverse

/-- Split a string at every newline character; always returns at least one
(possibly empty) piece, like Python `str.split` with a separator. -/
def splitOnNl : Str → List Str
  | [] => [[]]
  | c :: cs =>
    if c = '\n' then [] :: splitOnNl cs
    else (c :: (splitOnNl cs).headD []) :: (splitOnNl cs).tail

/-- Python `str.splitlines()`: newline-separated pieces, without a trailing
empty piece (so the empty string has no lines). -/
def pySplitlines (s : Str) : List Str :=
  if (splitOnNl s).getLastD [] = [] then (splitOnNl s).dropLast else splitOnNl s

/-- Python file iteration (`for line in f`): each line keeps its trailing
newline character; a last piece without a newline is kept iff nonempty. -/
def pyFileLines (s : Str) : List Str :=
  ((splitOnNl s).dropLast.map (fun l => l ++ ['\n'])) ++
    (if (splitOnNl s).getLastD [] = [] then [] else [(splitOnNl s).getLastD []])

/-- Python `'\n'.join(ls)`. -/
def joinNl : List Str → Str
  | [] => []
  | [l] => l
  | l :: l2 :: ls => l ++ '\n' :: joinNl (l2 :: ls)

/-- Python `line.endswith(p)` for a single character `p`. -/
def endsWithChar (line : Str) (p : Char) : Bool :=
  line.getLast? == some p

/-- Lines 61-66 of wiki.py: a line is "ordinary" when it ends with one of
the punctuation characters in the string literal `'!?.'`. -/
def isOrdinary (line : Str) : Bool :=
  ['!', '?', '.'].any (fun p => endsWithChar line p)

/-- Lines 58-69 of wiki.py: keep, per section text, the ordinary lines of
`text.strip().splitlines()`. -/
def cleanFilter (sectionTexts : List Str) : List Str :=
  sectionTexts.flatMap (fun text => (pySplitlines (pyStrip text)).filter isOrdinary)

/-- `_clean_wiki_text` (lines 11-71 of wiki.py), taking as input the section
texts produced by the external markup collaborator (the
`section.strip_code().strip()` results of lines 38-54): the post-filter of
lines 56-71 keeps ordinary lines and joins them with newlines. -/
def _clean_wiki_text (sectionTexts : List Str) : Str :=
  joinNl (cleanFilter sectionTexts)

/-- The Python exceptions that the pipeline can die with (plus `parseError`,
the `xml.etree` exception the spec names, for contrast). -/
inductive PyError
  | nameError
  | attributeError
  | notImplementedError
  | fileNotFoundError
  | parseError
deriving DecidableEq

deriving instance DecidableEq for Except

/-- A `<page>` element of the dump, as the reader of lines 156-176 sees it:
the result of `elem.find(ns)`/`elem.find(revision/text)` (outer `Option`:
the element may be absent, giving `None`) and its `.text` (inner `Option`:
the text may be `None`). -/
structure Page where
  nsElem : Option (Option Str)
  textElem : Option (Option Str)
deriving DecidableEq

def zeroStr : Str := ['0']

def redirectStr : Str := ['#', 'r', 'e', 'd', 'i', 'r', 'e', 'c', 't']

/-- Python `str.lower()`. -/
def pyLower (s : Str) : Str := s.map Char.toLower

/-- `article.lower().startswith('#redirect')` (line 172 of wiki.py). -/
def isRedirect (a : Str) : Bool := redirectStr.isPrefixOf (pyLower a)

/-- One iteration of the reader loop, lines 161-176 of wiki.py: accessing
`.text` on an absent element raises `AttributeError`; a page whose namespace
id text differs from `'0'` is skipped; a `None` or `#redirect`-prefixed
article is skipped; otherwise the article text is enqueued. -/
def readerStep (p : Page) : Except PyError (Option Str) :=
  match p.nsElem with
  | none => Except.error PyError.attributeError
  | some nsText =>
    if nsText ≠ some zeroStr then Except.ok none
    else
      match p.textElem with
      | none => Except.error PyError.attributeError
      | some articleText =>
        match articleText with
        | none => Except.ok none
        | some article =>
          if isRedirect article then Except.ok none
          else Except.ok (some article)

/-- The whole reader loop: the articles enqueued (in order), and the
exception that interrupted the loop, if any. -/
def readPages : List Page → List Str × Option PyError
  | [] => ([], none)
  | p :: ps =>
    match readerStep p with
    | Except.error e => ([], some e)
    | Except.ok a => (a.toList ++ (readPages ps).1, (readPages ps).2)

def langSuffix : Str := ['l', 'a', 'n', 'g']

/-- Lines 124-128 of wiki.py: the first root attribute whose name ends with
`lang`; when there is none, the variable `lang` stays unbound (`none`). -/
def findLang : List (Str × Str) → Option Str
  | [] => none
  | (n, v) :: rest => if langSuffix.isSuffixOf n then some v else findLang rest

/-- The loop of `_process_article_worker` (lines 77-84 of wiki.py): dequeue
items; a `none` (the sentinel) breaks the loop; an article's cleaned text is
appended to the shard file with no separator.  The article is given as its
section texts (see `_clean_wiki_text`). -/
def processLoop : List (Option (List Str)) → Str → Str
  | [], file => file
  | none :: _, file => file
  | some code :: rest, file => processLoop rest (file ++ _clean_wiki_text code)

/-- `_process_article_worker` (lines 74-85): run the loop on the items the
worker dequeues, starting from an empty shard file. -/
def _process_article_worker (items : List (Option (List Str))) : Str :=
  processLoop items []

def enStr : Str := ['e', 'n']

def koStr : Str := ['k', 'o']

/-- The loop of `_tokenize_sentences_worker` (lines 107-114 of wiki.py):
for each file line (which keeps its trailing newline), skip it when
`len(line) < min_len`, else write the newline-join of the nonempty
sentences followed by a newline. -/
def tokenizeLoop (tok : Str → List Str) (minLen : Nat) : List Str → Str → Str
  | [], dst => dst
  | line :: rest, dst =>
    if line.length < minLen then tokenizeLoop tok minLen rest dst
    else
      tokenizeLoop tok minLen rest
        (dst ++ joinNl ((tok line).filter (fun s => !s.isEmpty)) ++ ['\n'])

/-- `_tokenize_sentences_worker` (lines 88-114 of wiki.py): dispatch on the
language code (`'en'` uses nltk, `'ko'` uses kss, both taken as parameters
since they are external); any other code raises `NotImplementedError`
inside the worker; on success the loop processes the shard file content. -/
def _tokenize_sentences_worker (enTok koTok : Str → List Str) (lang : Str)
    (minLen : Nat) (content : Str) : Except PyError Str :=
  if lang = enStr then
    Except.ok (tokenizeLoop enTok minLen (pyFileLines content) [])
  else if lang = koStr then
    Except.ok (tokenizeLoop koTok minLen (pyFileLines content) [])
  else
    Except.error PyError.notImplementedError

/-- The merge of lines 207-211 of wiki.py: open the output file and append
shard `0`, shard `1`, ..., shard `n-1` to it in turn. -/
def mergeShards (split : Nat → Str) (n : Nat) : Str :=
  (List.range n).foldl (fun dst i => dst ++ split i) []

/-- Events of the orchestrator `_extract_wiki_corpus` in the order its
sequential parent process performs them. -/
inductive PEv
  | start1 (i : Nat)
  | enqueue (a : Str)
  | sentinel
  | exit1 (i : Nat)
  | start2 (i : Nat)
  | exit2 (i : Nat)
  | mergeEv
deriving DecidableEq

/-- The event trace of `_extract_wiki_corpus` (lines 144-211 of wiki.py):
start the `n` Stage-1 workers (148-153), enqueue the eligible articles
(157-176), enqueue one sentinel per worker (179-180), join every Stage-1
worker (181-182), start the `n` Stage-2 workers (186-198), join them
(201-202), then merge (207-211). -/
def pipelineEvents (n : Nat) (arts : List Str) : List PEv :=
  ((List.range n).map PEv.start1) ++ (arts.map PEv.enqueue) ++
    (List.replicate n PEv.sentinel) ++ ((List.range n).map PEv.exit1) ++
    ((List.range n).map PEv.start2) ++ ((List.range n).map PEv.exit2) ++
    [PEv.mergeEv]

/-- Stage-2 events: worker starts, then per-worker success or failure. -/
inductive Ev2
  | start2 (i : Nat)
  | ok2 (i : Nat)
  | fail2 (i : Nat)
deriving DecidableEq

/-- The Stage-2 phase of `_extract_wiki_corpus` (lines 184-202): all `n`
workers are started first (186-198); worker `i` then runs
`_tokenize_sentences_worker` on shard `i` and either finishes or dies on
the exception it raised. -/
def stage2Events (enTok koTok : Str → List Str) (lang : Str) (minLen : Nat)
    (shards : List Str) : List Ev2 :=
  ((List.range shards.length).map Ev2.start2) ++
    ((List.range shards.length).map (fun i =>
      match _tokenize_sentences_worker enTok koTok lang minLen (shards.getD i []) with
      | Except.ok _ => Ev2.ok2 i
      | Except.error _ => Ev2.fail2 i))

/-- The declared default of the `num-cores` option (line 225 of wiki.py). -/
def numCoresDefault : Int := -1

/-- Modelled from the spec: the extension-option loader (part of the
surrounding tool, not under `src/`) resolves the `num-cores` option; when
the option is not supplied it autodetects the machine's available
parallelism (`cpuCount`). -/
def resolveNumCores (supplied : Option Nat) (cpuCount : Nat) : Nat :=
  supplied.getD cpuCount

/-- A Stage-1 worker's shard file for the articles it dequeued: the worker
loop run on those articles followed by the sentinel. -/
def stage1Shard (arts : List (List Str)) : Str :=
  _process_article_worker (arts.map some ++ [none])

/-- The Stage-2 shard produced from one Stage-1 shard. -/
def stage2Shard (tok : Str → List Str) (minLen : Nat)
    (arts : List (List Str)) : Str :=
  tokenizeLoop tok minLen (pyFileLines (stage1Shard arts)) []

/-- The final output file of a run in which worker `i` dequeued the article
list `sched.getD i []` (articles given as section-text lists): the merge of
the Stage-2 shards in index order. -/
def finalOutput (tok : Str → List Str) (minLen : Nat)
    (sched : List (List (List Str))) : Str :=
  mergeShards (fun i => stage2Shard tok minLen (sched.getD i [])) sched.length

/-- `_extract_wiki_corpus` (lines 117-216 of wiki.py) as a function of the
external collaborators: `parse` is the markup collaborator turning raw
article text into section texts (lines 38-54), `schedule` resolves the
queue race by partitioning the enqueued articles among the workers, and
`enTok`/`koTok` are the external tokenizers.  The run fails with the first
exception raised: an `AttributeError` from the reader, the unbound `lang`
(`NameError`) when no root attribute ends in `lang`, or a worker failure. -/
def extractRun (parse : Str → List Str) (schedule : List Str → List (List Str))
    (enTok koTok : Str → List Str) (rootAttrs : List (Str × Str))
    (pages : List Page) (minLen : Nat) : Except PyError Str :=
  match readPages pages with
  | (_, some e) => Except.error e
  | (arts, none) =>
    match findLang rootAttrs with
    | none => Except.error PyError.nameError
    | some lang =>
      match (schedule arts).mapM (fun ws =>
        _tokenize_sentences_worker enTok koTok lang minLen
          (stage1Shard (ws.map parse))) with
      | Except.error e => Except.error e
      | Except.ok outs => Except.ok (mergeShards (fun i => outs.getD i []) outs.length)

/-- Modelled from the spec: a sample instantiation of the external
sentence-splitting capability, returning the stripped line as a single
sentence. -/
def sampleTok (l : Str) : List Str := [pyStrip l]

/-- Modelled from the spec: a sample instantiation of the external markup
collaborator for plain-text articles, which form a single lead section. -/
def sampleParse (s : Str) : List Str := [s]

lemma splitOnNl_ne_nil (s : Str) : splitOnNl s ≠ [] := by
  cases s with
  | nil => simp [splitOnNl]
  | cons c cs => simp only [splitOnNl]; split <;> simp

lemma mem_splitOnNl_no_nl (s : Str) : ∀ l ∈ splitOnNl s, '\n' ∉ l := by
  induction s with
  | nil =>
    intro l hl
    simp [splitOnNl] at hl
    simp [hl]
  | cons c cs ih =>
    intro l hl
    simp only [splitOnNl] at hl
    by_cases hc : c = '\n'
    · rw [if_pos hc] at hl
      rcases List.mem_cons.mp hl with h | h
      · simp [h]
      · exact ih l h
    · rw [if_neg hc] at hl
      rcases List.mem_cons.mp hl with h | h
      · subst h
        intro hmem
        rcases List.mem_cons.mp hmem with h' | h'
        · exact hc h'.symm
        · have hne := splitOnNl_ne_nil cs
          have hhd : (splitOnNl cs).headD [] ∈ splitOnNl cs := by
            cases hcs : splitOnNl cs with
            | nil => exact absurd hcs hne
            | cons a as => simp
          exact ih _ hhd h'
      · exact ih l (List.mem_of_mem_tail h)

lemma splitOnNl_of_no_nl (s : Str) (h : '\n' ∉ s) : splitOnNl s = [s] := by
  induction s with
  | nil => rfl
  | cons c cs ih =>
    have hc : c ≠ '\n' := fun hc => h (hc ▸ List.mem_cons_self c cs)
    have hcs : '\n' ∉ cs := fun hm => h (List.mem_cons_of_mem _ hm)
    simp [splitOnNl, if_neg hc, ih hcs]

lemma splitOnNl_append_nl (x t : Str) (h : '\n' ∉ x) :
    splitOnNl (x ++ '\n' :: t) = x :: splitOnNl t := by
  induction x with
  | nil => simp [splitOnNl]
  | cons c cs ih =>
    have hc : c ≠ '\n' := fun hc => h (hc ▸ List.mem_cons_self c cs)
    have hcs : '\n' ∉ cs := fun hm => h (List.mem_cons_of_mem _ hm)
    simp [splitOnNl, if_neg hc, ih hcs]

lemma joinNl_cons_ne (x : Str) (L : List Str) (h : L ≠ []) :
    joinNl (x :: L) = x ++ '\n' :: joinNl L := by
  cases L with
  | nil => exact absurd rfl h
  | cons a as => rfl

lemma splitOnNl_joinNl (ls : List Str) (h0 : ls ≠ []) (h : ∀ l ∈ ls, '\n' ∉ l) :
    splitOnNl (joinNl ls) = ls := by
  induction ls with
  | nil => exact absurd rfl h0
  | cons l rest ih =>
    cases rest with
    | nil => exact splitOnNl_of_no_nl l (h l (List.mem_cons_self l []))
    | cons l2 rest2 =>
      rw [joinNl_cons_ne l (l2 :: rest2) (by simp)]
      rw [splitOnNl_append_nl l _ (h l (List.mem_cons_self _ _))]
      rw [ih (by simp) (fun a ha => h a (List.mem_cons_of_mem _ ha))]

lemma mem_getLastD {α : Type} : ∀ (l : List α) (d : α), l ≠ [] → l.getLastD d ∈ l
  | [], _, h => absurd rfl h
  | [a], _, _ => by simp [List.getLastD]
  | a :: b :: bs, d, _ => by
    have ih := mem_getLastD (b :: bs) a (by simp)
    rw [List.getLastD_cons]
    exact List.mem_cons_of_mem a ih

lemma pySplitlines_joinNl (ls : List Str) (h : ∀ l ∈ ls, l ≠ [] ∧ '\n' ∉ l) :
    pySplitlines (joinNl ls) = ls := by
  cases ls with
  | nil => decide
  | cons l rest =>
    have hs : splitOnNl (joinNl (l :: rest)) = l :: rest :=
      splitOnNl_joinNl _ (by simp) (fun a ha => (h a ha).2)
    have hlast : (l :: rest).getLastD [] ≠ [] :=
      (h _ (mem_getLastD (l :: rest) [] (by simp))).1
    rw [pySplitlines, hs, if_neg hlast]

lemma mem_pySplitlines {l s : Str} (h : l ∈ pySplitlines s) : l ∈ splitOnNl s := by
  rw [pySplitlines] at h
  split at h
  · exact List.dropLast_subset _ h
  · exact h

lemma isOrdinary_ne_nil {l : Str} (h : isOrdinary l = true) : l ≠ [] := by
  intro he
  subst he
  simp [isOrdinary, endsWithChar] at h

lemma mem_cleanFilter {l : Str} {secs : List Str} (h : l ∈ cleanFilter secs) :
    isOrdinary l = true ∧ l ≠ [] ∧ '\n' ∉ l := by
  rw [cleanFilter] at h
  rcases List.mem_flatMap.mp h with ⟨t, _, hl⟩
  rcases List.mem_filter.mp hl with ⟨hmem, hord⟩
  exact ⟨hord, isOrdinary_ne_nil hord, mem_splitOnNl_no_nl _ _ (mem_pySplitlines hmem)⟩

lemma pySplitlines_clean (secs : List Str) :
    pySplitlines (_clean_wiki_text secs) = cleanFilter secs := by
  rw [_clean_wiki_text]
  exact pySplitlines_joinNl _
    (fun l hl => ⟨(mem_cleanFilter hl).2.1, (mem_cleanFilter hl).2.2⟩)

lemma joinNl_glue : ∀ (xs ys : List Str), xs ≠ [] → ys ≠ [] →
    joinNl xs ++ joinNl ys =
      joinNl (xs.dropLast ++ (xs.getLastD [] ++ ys.headD []) :: ys.tail)
  | [], _, hx, _ => absurd rfl hx
  | [x], ys, _, hy => by
    cases ys with
    | nil => exact absurd rfl hy
    | cons y ys2 =>
      cases ys2 with
      | nil => simp [joinNl, List.getLastD]
      | cons y2 ys3 => simp [joinNl, List.getLastD, List.append_assoc]
  | x :: x2 :: xs2, ys, _, hy => by
    have ih := joinNl_glue (x2 :: xs2) ys (by simp) hy
    have hL : (x2 :: xs2).dropLast ++
        ((x2 :: xs2).getLastD [] ++ ys.headD []) :: ys.tail ≠ [] := by simp
    calc joinNl (x :: x2 :: xs2) ++ joinNl ys
        = x ++ '\n' :: (joinNl (x2 :: xs2) ++ joinNl ys) := by
          rw [joinNl_cons_ne x (x2 :: xs2) (by simp)]
          simp [List.append_assoc]
      _ = x ++ '\n' :: joinNl ((x2 :: xs2).dropLast ++
            ((x2 :: xs2).getLastD [] ++ ys.headD []) :: ys.tail) := by rw [ih]
      _ = joinNl (x :: ((x2 :: xs2).dropLast ++
            ((x2 :: xs2).getLastD [] ++ ys.headD []) :: ys.tail)) :=
          (joinNl_cons_ne _ _ hL).symm
      _ = joinNl ((x :: x2 :: xs2).dropLast ++
            ((x :: x2 :: xs2).getLastD [] ++ ys.headD []) :: ys.tail) := by
          simp [List.getLastD_cons]

lemma processLoop_append (arts : List (List Str))
    (rest : List (Option (List Str))) (file : Str) :
    processLoop (arts.map some ++ rest) file =
      processLoop rest (file ++ (arts.map _clean_wiki_text).flatten) := by
  induction arts generalizing file with
  | nil => simp
  | cons a as ih =>
    simp only [List.map_cons, List.cons_append, processLoop, List.append_eq]
    rw [ih]
    simp [List.append_assoc]

lemma foldl_append_flatten (split : Nat → Str) :
    ∀ (l : List Nat) (acc : Str),
      l.foldl (fun dst i => dst ++ split i) acc = acc ++ (l.map split).flatten
  | [], acc => by simp
  | i :: is, acc => by
    simp only [List.foldl_cons, List.map_cons]
    rw [foldl_append_flatten split is]
    simp [List.append_assoc]

lemma mem_headD {α : Type} (l : List α) (d : α) (h : l ≠ []) : l.headD d ∈ l := by
  cases l with
  | nil => exact absurd rfl h
  | cons a as => simp

lemma readerStep_ok_some {p : Page} {art : Str}
    (h : readerStep p = Except.ok (some art)) :
    p.nsElem = some (some zeroStr) ∧ p.textElem = some (some art) ∧
      isRedirect art = false := by
  obtain ⟨nsElem, textElem⟩ := p
  cases nsElem with
  | none => simp [readerStep] at h
  | some nsText =>
    by_cases hz : nsText = some zeroStr
    · subst hz
      cases textElem with
      | none => simp [readerStep] at h
      | some articleText =>
        cases articleText with
        | none => simp [readerStep] at h
        | some article =>
          by_cases hr : isRedirect article
          · simp [readerStep, hr] at h
          · simp [readerStep, hr] at h
            subst h
            simp [hr]
    · simp [readerStep, hz] at h

/-- Claim C1: the reader enqueues a page's text for cleaning only if the
page's namespace id equals `'0'` and its revision text is non-null and does
not case-insensitively start with `#redirect`; hence every article dequeued
by a Stage-1 worker has namespace id `0` and a non-null, non-redirect body. -/
theorem reader_enqueues_only_eligible (pages : List Page) (art : Str)
    (h : art ∈ (readPages pages).1) :
    ∃ p ∈ pages, p.nsElem = some (some zeroStr) ∧
      p.textElem = some (some art) ∧ isRedirect art = false := by
  induction pages with
  | nil => simp [readPages] at h
  | cons p ps ih =>
    rw [readPages] at h
    cases hstep : readerStep p with
    | error e => rw [hstep] at h; simp at h
    | ok a =>
      rw [hstep] at h
      simp only at h
      rcases List.mem_append.mp h with hm | hm
      · have ha : a = some art := by
          cases a with
          | none => simp [Option.toList] at hm
          | some x =>
            simp [Option.toList] at hm
            rw [hm]
        rw [ha] at hstep
        exact ⟨p, List.mem_cons_self p ps, readerStep_ok_some hstep⟩
      · rcases ih hm with ⟨q, hq, hprops⟩
        exact ⟨q, List.mem_cons_of_mem p hq, hprops⟩

theorem reader_enqueues_only_eligible_witness :
    (['H', 'i', '.'] ∈
      (readPages [⟨some (some ['0']), some (some ['H', 'i', '.'])⟩,
        ⟨some (some ['1']), some (some ['x', '.'])⟩,
        ⟨some (some ['0']), some (some ['#', 'R', 'E', 'D', 'I', 'R', 'E', 'C', 'T'])⟩]).1) ∧
    ∃ p ∈ [(⟨some (some ['0']), some (some ['H', 'i', '.'])⟩ : Page),
        ⟨some (some ['1']), some (some ['x', '.'])⟩,
        ⟨some (some ['0']), some (some ['#', 'R', 'E', 'D', 'I', 'R', 'E', 'C', 'T'])⟩],
      p.nsElem = some (some zeroStr) ∧
        p.textElem = some (some ['H', 'i', '.']) ∧ isRedirect ['H', 'i', '.'] = false :=
  ⟨by decide, reader_enqueues_only_eligible _ ['H', 'i', '.'] (by decide)⟩

/-- Claim C2: for every input and namespace set, every line of the string
returned by the markup cleaner ends with `'!'`, `'?'` or `'.'`; other lines
are dropped by the post-filter. -/
theorem clean_output_lines_end_punct (sectionTexts : List Str) (line : Str)
    (h : line ∈ pySplitlines (_clean_wiki_text sectionTexts)) :
    isOrdinary line = true := by
  rw [pySplitlines_clean] at h
  exact (mem_cleanFilter h).1

theorem clean_output_lines_end_punct_witness :
    (['H', 'i', '.'] ∈ pySplitlines (_clean_wiki_text [['H', 'i', '.'], ['n', 'o']])) ∧
      isOrdinary ['H', 'i', '.'] = true :=
  ⟨by decide, clean_output_lines_end_punct [['H', 'i', '.'], ['n', 'o']] _ (by decide)⟩

/-- Claim C3: for any worker count `n ≥ 1`, the final output file equals the
byte-concatenation of the `n` Stage-2 shard files in strict index order
`0..n-1`, with no transformation of their contents. -/
theorem merge_is_concat_in_order (split : Nat → Str) (n : Nat) (_h : 1 ≤ n) :
    mergeShards split n = ((List.range n).map split).flatten := by
  rw [mergeShards, foldl_append_flatten]
  simp

def sampleSplit : Nat → Str := fun i => if i = 0 then ['A', '\n'] else ['B', '\n']

theorem merge_is_concat_in_order_witness :
    mergeShards sampleSplit 2 = ((List.range 2).map sampleSplit).flatten :=
  merge_is_concat_in_order sampleSplit 2 (by decide)

/-- Claim C6 (implicit): a Stage-1 worker's shard file equals the
concatenation, in dequeue order, of the cleaner's outputs with no separator
between consecutive articles; when two consecutive cleaned articles are
both nonempty, the last line of the first and the first line of the second
occupy a single line of the shard file. -/
theorem worker_shard_concat_glues_lines (arts : List (List Str)) (a b : List Str)
    (ha : _clean_wiki_text a ≠ []) (hb : _clean_wiki_text b ≠ []) :
    _process_article_worker (arts.map some ++ [none]) =
        (arts.map _clean_wiki_text).flatten ∧
      pySplitlines (_process_article_worker [some a, some b, none]) =
        (pySplitlines (_clean_wiki_text a)).dropLast ++
          ((pySplitlines (_clean_wiki_text a)).getLastD [] ++
            (pySplitlines (_clean_wiki_text b)).headD []) ::
            (pySplitlines (_clean_wiki_text b)).tail := by
  constructor
  · rw [_process_article_worker, processLoop_append]
    simp [processLoop]
  · have hca : cleanFilter a ≠ [] := by
      intro h0
      exact ha (by rw [_clean_wiki_text, h0]; rfl)
    have hcb : cleanFilter b ≠ [] := by
      intro h0
      exact hb (by rw [_clean_wiki_text, h0]; rfl)
    have hshard : _process_article_worker [some a, some b, none] =
        _clean_wiki_text a ++ _clean_wiki_text b := by
      rw [_process_article_worker,
        show ([some a, some b, none] : List (Option (List Str))) =
          [a, b].map some ++ [none] from rfl,
        processLoop_append]
      simp [processLoop]
    rw [hshard, pySplitlines_clean, pySplitlines_clean,
      _clean_wiki_text, _clean_wiki_text,
      joinNl_glue (cleanFilter a) (cleanFilter b) hca hcb]
    apply pySplitlines_joinNl
    intro l hl
    rcases List.mem_append.mp hl with hm | hm
    · have hmem := List.dropLast_subset _ hm
      exact ⟨(mem_cleanFilter hmem).2.1, (mem_cleanFilter hmem).2.2⟩
    · rcases List.mem_cons.mp hm with hm2 | hm2
      · subst hm2
        have h1 := mem_cleanFilter (mem_getLastD (cleanFilter a) [] hca)
        have h2 := mem_cleanFilter (mem_headD (cleanFilter b) [] hcb)
        constructor
        · intro hnil
          exact h1.2.1 (List.append_eq_nil.mp hnil).1
        · intro hmem
          rcases List.mem_append.mp hmem with hin | hin
          · exact h1.2.2 hin
          · exact h2.2.2 hin
      · have hmem := List.mem_of_mem_tail hm2
        exact ⟨(mem_cleanFilter hmem).2.1, (mem_cleanFilter hmem).2.2⟩

theorem worker_shard_concat_glues_lines_witness :
    pySplitlines (_process_article_worker
        [some [['a', '.']], some [['b', '!']], none]) =
      (pySplitlines (_clean_wiki_text [['a', '.']])).dropLast ++
        ((pySplitlines (_clean_wiki_text [['a', '.']])).getLastD [] ++
          (pySplitlines (_clean_wiki_text [['b', '!']])).headD []) ::
          (pySplitlines (_clean_wiki_text [['b', '!']])).tail :=
  (worker_shard_concat_glues_lines [] [['a', '.']] [['b', '!']]
    (by decide) (by decide)).2

/-- Claim C5 is refuted on the code: the skip test of line 110 of wiki.py
measures the file line, which keeps its trailing newline character, so with
`min-length = 3` the cleaned line `"a."` (length 2) becomes the file line
`"a.\n"` (length 3), is not skipped, and produces the output sentence
`"a."` — an output sentence originating from a cleaned line shorter than
`min-length`. -/
theorem minlen_counts_newline_cex :
    (['a', '.'] ∈ pySplitlines (_clean_wiki_text [['a', '.'], ['b', '.']])) ∧
      (['a', '.'] : Str).length < 3 ∧
      _tokenize_sentences_worker sampleTok sampleTok enStr 3
          (_clean_wiki_text [['a', '.'], ['b', '.']]) =
        Except.ok ['a', '.', '\n'] := by
  decide

/-- Claim C5 as amended: a Stage-2 worker skips a file line, and that line
then contributes nothing to the worker's output, exactly when the line's
length — which includes the trailing newline character for every line but
the shard's last — is less than `min-length`; consequently no output
sentence originates from a file line shorter than `min-length`, but a
cleaned line of length `min-length - 1` that is followed by a further line
is tokenized. -/
theorem short_fileline_contributes_nothing (tok : Str → List Str)
    (minLen : Nat) (line : Str) (h : line.length < minLen) :
    ∀ (l1 l2 : List Str) (dst : Str),
      tokenizeLoop tok minLen (l1 ++ line :: l2) dst =
        tokenizeLoop tok minLen (l1 ++ l2) dst := by
  intro l1
  induction l1 with
  | nil =>
    intro l2 dst
    simp [tokenizeLoop, if_pos h]
  | cons a l1 ih =>
    intro l2 dst
    simp only [List.cons_append, tokenizeLoop, List.append_eq]
    by_cases ha : a.length < minLen
    · rw [if_pos ha, if_pos ha, ih]
    · rw [if_neg ha, if_neg ha, ih]

theorem short_fileline_contributes_nothing_witness :
    (['b', '.'] : Str).length < 3 ∧
      tokenizeLoop sampleTok 3 ([['a', '.', '\n']] ++ ['b', '.'] :: []) [] =
        tokenizeLoop sampleTok 3 ([['a', '.', '\n']] ++ []) [] :=
  ⟨by decide, short_fileline_contributes_nothing sampleTok 3 ['b', '.']
    (by decide) [['a', '.', '\n']] [] []⟩

/-- Claim C4 is refuted on the code: two runs on the same two articles with
the same worker count 2, differing only in which worker dequeued the second
article, emit different sentence sets.  When one worker dequeues both
articles, their cleaned texts are concatenated without a separator (line 83
of wiki.py), so the glued line `"x.y."` is emitted; when the articles go to
different workers, the sentences `"x."` and `"y."` are emitted instead. -/
theorem sentence_set_depends_on_schedule_cex :
    (([[[['x', '.']], [['y', '.']]], []] :
        List (List (List Str))).flatten = [[['x', '.']], [['y', '.']]]) ∧
      (([[[['x', '.']]], [[['y', '.']]]] :
        List (List (List Str))).flatten = [[['x', '.']], [['y', '.']]]) ∧
      (['x', '.', 'y', '.'] ∈
        pySplitlines (finalOutput sampleTok 0 [[[['x', '.']], [['y', '.']]], []])) ∧
      (['x', '.', 'y', '.'] ∉
        pySplitlines (finalOutput sampleTok 0 [[[['x', '.']]], [[['y', '.']]]])) := by
  decide

/-- Claim C4 as amended: for two runs differing only in worker count or
cross-worker scheduling (any two partitions of the same articles), the
multiset of cleaned article texts written across the Stage-1 shards is the
same; the set of emitted sentences, however, may differ, because
consecutive nonempty cleaned articles within one shard are concatenated
without a separator and their boundary lines merge. -/
theorem schedule_invariant_cleaned_multiset
    (sched1 sched2 : List (List (List Str))) (arts : List (List Str))
    (h1 : sched1.flatten.Perm arts) (h2 : sched2.flatten.Perm arts) :
    (sched1.flatten.map _clean_wiki_text).Perm
      (sched2.flatten.map _clean_wiki_text) :=
  (h1.map _clean_wiki_text).trans (h2.map _clean_wiki_text).symm

theorem schedule_invariant_cleaned_multiset_witness :
    (([[[['x', '.']]], [[['y', '.']]]] :
        List (List (List Str))).flatten.map _clean_wiki_text).Perm
      (([[[['y', '.']]], [[['x', '.']]]] :
        List (List (List Str))).flatten.map _clean_wiki_text) :=
  schedule_invariant_cleaned_multiset _ _ [[['x', '.']], [['y', '.']]]
    (by decide) (by decide)

/-- Claim C7 is refuted on the code: with the unsupported language code
`'fr'`, the Stage-2 phase starts its workers first (the first event of the
phase is a worker start) and every worker then dies on the
`NotImplementedError` raised inside it (lines 104-105 of wiki.py); the run
does not fail before a Stage-2 worker is started, and the exception raised
is `NotImplementedError`. -/
theorem unsupported_lang_starts_workers_cex :
    (stage2Events sampleTok sampleTok ['f', 'r'] 3 [[], []]).headD (Ev2.ok2 0) =
        Ev2.start2 0 ∧
      Ev2.fail2 0 ∈ stage2Events sampleTok sampleTok ['f', 'r'] 3 [[], []] ∧
      _tokenize_sentences_worker sampleTok sampleTok ['f', 'r'] 3 [] =
        Except.error PyError.notImplementedError := by
  decide

/-- Claim C7 as amended: for every language code other than `'en'` and
`'ko'`, every Stage-2 worker is started, and each then fails with the
`NotImplementedError` raised inside it before reading its shard or writing
any output; the language check runs inside the workers after they start,
not before. -/
theorem unsupported_lang_workers_start_then_fail (enTok koTok : Str → List Str)
    (lang : Str) (minLen : Nat) (shards : List Str)
    (h1 : lang ≠ enStr) (h2 : lang ≠ koStr) :
    (∀ content, _tokenize_sentences_worker enTok koTok lang minLen content =
        Except.error PyError.notImplementedError) ∧
      stage2Events enTok koTok lang minLen shards =
        ((List.range shards.length).map Ev2.start2) ++
          ((List.range shards.length).map Ev2.fail2) := by
  have hw : ∀ content, _tokenize_sentences_worker enTok koTok lang minLen content =
      Except.error PyError.notImplementedError := by
    intro content
    rw [_tokenize_sentences_worker, if_neg h1, if_neg h2]
  refine ⟨hw, ?_⟩
  rw [stage2Events]
  congr 1
  refine List.map_eq_map_iff.mpr ?_
  intro i _
  rw [hw]

theorem unsupported_lang_workers_start_then_fail_witness :
    (∀ content, _tokenize_sentences_worker sampleTok sampleTok ['f', 'r'] 5 content =
        Except.error PyError.notImplementedError) ∧
      stage2Events sampleTok sampleTok ['f', 'r'] 5 [['a'], ['b']] =
        ((List.range 2).map Ev2.start2) ++ ((List.range 2).map Ev2.fail2) :=
  unsupported_lang_workers_start_then_fail sampleTok sampleTok ['f', 'r'] 5
    [['a'], ['b']] (by decide) (by decide)

lemma readerStep_error {p : Page} {e : PyError}
    (h : readerStep p = Except.error e) : e = PyError.attributeError := by
  obtain ⟨nsElem, textElem⟩ := p
  cases nsElem with
  | none =>
    simp [readerStep] at h
    exact h.symm
  | some nsText =>
    by_cases hz : nsText = some zeroStr
    · subst hz
      cases textElem with
      | none =>
        simp [readerStep] at h
        exact h.symm
      | some articleText =>
        cases articleText with
        | none => simp [readerStep] at h
        | some article =>
          by_cases hr : isRedirect article
          · simp [readerStep, hr] at h
          · simp [readerStep, hr] at h
    · simp [readerStep, hz] at h

lemma readPages_error_attr : ∀ (ps : List Page) (e : PyError),
    (readPages ps).2 = some e → e = PyError.attributeError
  | [], e, h => by simp [readPages] at h
  | p :: ps, e, h => by
    rw [readPages] at h
    cases hstep : readerStep p with
    | error e2 =>
      rw [hstep] at h
      simp only at h
      rcases h with h
      exact (Option.some_inj.mp h) ▸ readerStep_error hstep
    | ok a =>
      rw [hstep] at h
      simp only at h
      exact readPages_error_attr ps e h

lemma extractRun_reader_error (parse : Str → List Str)
    (schedule : List Str → List (List Str)) (enTok koTok : Str → List Str)
    (rootAttrs : List (Str × Str)) (pages : List Page) (minLen : Nat)
    (e : PyError) (h : (readPages pages).2 = some e) :
    extractRun parse schedule enTok koTok rootAttrs pages minLen =
      Except.error e := by
  rw [extractRun]
  rcases hrp : readPages pages with ⟨arts, err⟩
  rw [hrp] at h
  simp only at h
  subst h
  rfl

lemma extractRun_no_lang (parse : Str → List Str)
    (schedule : List Str → List (List Str)) (enTok koTok : Str → List Str)
    (rootAttrs : List (Str × Str)) (pages : List Page) (minLen : Nat)
    (h1 : (readPages pages).2 = none) (h2 : findLang rootAttrs = none) :
    extractRun parse schedule enTok koTok rootAttrs pages minLen =
      Except.error PyError.nameError := by
  rw [extractRun]
  rcases hrp : readPages pages with ⟨arts, err⟩
  rw [hrp] at h1
  simp only at h1
  subst h1
  simp [h2]

/-- Claim C8 is refuted on the code: when the root element lacks a language
attribute the extraction does fail and produces no output, but the
exception is a `NameError` — the variable `lang` of line 127 of wiki.py is
never bound and is first used at line 193 — not a `ParseError`. -/
theorem missing_lang_not_parse_error_cex :
    extractRun sampleParse (fun arts => [arts]) sampleTok sampleTok
        [(['v'], ['1'])] [] 0 = Except.error PyError.nameError ∧
      PyError.nameError ≠ PyError.parseError := by
  decide

/-- Claim C8 as amended: if the root element lacks an attribute ending in
`lang`, or a page lacks the namespace-id or revision-text element at the
expected path, the extraction fails fatally — with a `NameError` (the
unbound variable `lang`) in the first case, raised after Stage 1 and before
any Stage-2 worker starts, and with an `AttributeError` in the second —
and no output file is produced.  (The spec calls the failure a ParseError;
the code raises these exception types instead.) -/
theorem malformed_export_fails_no_output (parse : Str → List Str)
    (schedule : List Str → List (List Str)) (enTok koTok : Str → List Str)
    (rootAttrs : List (Str × Str)) (pages : List Page) (minLen : Nat)
    (h : findLang rootAttrs = none ∨
      (readPages pages).2 = some PyError.attributeError) :
    (extractRun parse schedule enTok koTok rootAttrs pages minLen =
        Except.error PyError.nameError ∨
      extractRun parse schedule enTok koTok rootAttrs pages minLen =
        Except.error PyError.attributeError) ∧
      ∀ out, extractRun parse schedule enTok koTok rootAttrs pages minLen ≠
        Except.ok out := by
  rcases h with hl | hr
  · cases herr : (readPages pages).2 with
    | some e =>
      have he := readPages_error_attr pages e herr
      subst he
      have hrun := extractRun_reader_error parse schedule enTok koTok
        rootAttrs pages minLen _ herr
      exact ⟨Or.inr hrun, fun out hok => by rw [hrun] at hok; simp at hok⟩
    | none =>
      have hrun := extractRun_no_lang parse schedule enTok koTok
        rootAttrs pages minLen herr hl
      exact ⟨Or.inl hrun, fun out hok => by rw [hrun] at hok; simp at hok⟩
  · have hrun := extractRun_reader_error parse schedule enTok koTok
      rootAttrs pages minLen _ hr
    exact ⟨Or.inr hrun, fun out hok => by rw [hrun] at hok; simp at hok⟩

theorem malformed_export_fails_no_output_witness :
    (extractRun sampleParse (fun arts => [arts]) sampleTok sampleTok
        [(['v'], ['1'])] [] 0 = Except.error PyError.nameError ∨
      extractRun sampleParse (fun arts => [arts]) sampleTok sampleTok
        [(['v'], ['1'])] [] 0 = Except.error PyError.attributeError) ∧
      ∀ out, extractRun sampleParse (fun arts => [arts]) sampleTok sampleTok
        [(['v'], ['1'])] [] 0 ≠ Except.ok out :=
  malformed_export_fails_no_output sampleParse (fun arts => [arts]) sampleTok
    sampleTok [(['v'], ['1'])] [] 0 (Or.inl (by decide))

def isStart1Ev : PEv → Bool
  | PEv.start1 _ => true
  | _ => false

def isStart2Ev : PEv → Bool
  | PEv.start2 _ => true
  | _ => false

def isSentinelEv : PEv → Bool
  | PEv.sentinel => true
  | _ => false

lemma countP_map_true {α β : Type} (p : β → Bool) (f : α → β)
    (h : ∀ a, p (f a) = true) : ∀ l : List α, (l.map f).countP p = l.length
  | [] => by simp
  | a :: as => by
    simp [List.countP_cons, h a, countP_map_true p f h as]

lemma countP_map_false {α β : Type} (p : β → Bool) (f : α → β)
    (h : ∀ a, p (f a) = false) : ∀ l : List α, (l.map f).countP p = 0
  | [] => by simp
  | a :: as => by
    simp [List.countP_cons, h a, countP_map_false p f h as]

lemma countP_replicate_true {α : Type} (p : α → Bool) (a : α) (h : p a = true) :
    ∀ n, (List.replicate n a).countP p = n
  | 0 => by simp
  | n + 1 => by
    simp [List.replicate_succ, List.countP_cons, h,
      countP_replicate_true p a h n]

lemma countP_replicate_false {α : Type} (p : α → Bool) (a : α)
    (h : p a = false) : ∀ n, (List.replicate n a).countP p = 0
  | 0 => by simp
  | n + 1 => by
    simp [List.replicate_succ, List.countP_cons, h,
      countP_replicate_false p a h n]

/-- Claim C10: after the reader is exhausted it enqueues exactly one
sentinel per worker (`n` sentinels for `n` workers); a Stage-1 worker exits
upon dequeuing a sentinel, so whatever follows that sentinel in its dequeue
stream does not affect its shard; and in the orchestrator's event order
every Stage-1 worker exit (join) precedes every Stage-2 worker start — the
pipeline blocks on the barrier before Stage 2 begins. -/
theorem sentinel_count_and_barrier (n : Nat) (arts : List Str) :
    (pipelineEvents n arts).countP isSentinelEv = n ∧
      (∀ (xs : List (List Str)) (ys : List (Option (List Str))) (file : Str),
        processLoop (xs.map some ++ none :: ys) file =
          processLoop (xs.map some ++ [none]) file) ∧
      ∃ pre post, pipelineEvents n arts = pre ++ post ∧
        (∀ i, PEv.exit1 i ∉ post) ∧ (∀ j, PEv.start2 j ∉ pre) := by
  refine ⟨?_, ?_, ?_⟩
  · rw [pipelineEvents]
    simp only [List.countP_append]
    rw [countP_map_false isSentinelEv PEv.start1 (fun a => rfl),
      countP_map_false isSentinelEv PEv.enqueue (fun a => rfl),
      countP_map_false isSentinelEv PEv.exit1 (fun a => rfl),
      countP_map_false isSentinelEv PEv.start2 (fun a => rfl),
      countP_map_false isSentinelEv PEv.exit2 (fun a => rfl),
      countP_replicate_true isSentinelEv PEv.sentinel rfl n]
    simp [List.countP_cons, List.countP_nil,
      show isSentinelEv PEv.mergeEv = false from rfl]
  · intro xs ys file
    induction xs generalizing file with
    | nil => rfl
    | cons a as ih =>
      simp only [List.map_cons, List.cons_append, processLoop]
      exact ih _
  · refine ⟨((List.range n).map PEv.start1) ++ (arts.map PEv.enqueue) ++
      (List.replicate n PEv.sentinel) ++ ((List.range n).map PEv.exit1),
      ((List.range n).map PEv.start2) ++ ((List.range n).map PEv.exit2) ++
        [PEv.mergeEv], ?_, ?_, ?_⟩
    · rw [pipelineEvents]
      simp [List.append_assoc]
    · intro i
      simp [List.mem_append, List.mem_map]
    · intro j
      simp [List.mem_append, List.mem_map, List.mem_replicate]

/-- Claim C9 (the option loader is outside `src/` and is modelled from the
spec): when `num-cores` is not supplied, the loader resolves it to the
autodetected available parallelism `cpu`, and that value governs the worker
count of both stages — `cpu` Stage-1 worker starts and `cpu` Stage-2 worker
starts appear in the run — a positive number, since autodetection returns
at least 1. -/
theorem default_numcores_autodetect (cpu : Nat) (arts : List Str)
    (h : 1 ≤ cpu) :
    resolveNumCores none cpu = cpu ∧ 0 < resolveNumCores none cpu ∧
      (pipelineEvents (resolveNumCores none cpu) arts).countP isStart1Ev = cpu ∧
      (pipelineEvents (resolveNumCores none cpu) arts).countP isStart2Ev = cpu := by
  have hr : resolveNumCores none cpu = cpu := rfl
  refine ⟨hr, by rw [hr]; exact h, ?_, ?_⟩
  · rw [hr, pipelineEvents]
    simp only [List.countP_append]
    rw [countP_map_true isStart1Ev PEv.start1 (fun a => rfl),
      countP_map_false isStart1Ev PEv.enqueue (fun a => rfl),
      countP_map_false isStart1Ev PEv.exit1 (fun a => rfl),
      countP_map_false isStart1Ev PEv.start2 (fun a => rfl),
      countP_map_false isStart1Ev PEv.exit2 (fun a => rfl),
      countP_replicate_false isStart1Ev PEv.sentinel rfl cpu]
    simp [List.countP_cons, List.countP_nil, List.length_range,
      show isStart1Ev PEv.mergeEv = false from rfl]
  · rw [hr, pipelineEvents]
    simp only [List.countP_append]
    rw [countP_map_false isStart2Ev PEv.start1 (fun a => rfl),
      countP_map_false isStart2Ev PEv.enqueue (fun a => rfl),
      countP_map_false isStart2Ev PEv.exit1 (fun a => rfl),
      countP_map_true isStart2Ev PEv.start2 (fun a => rfl),
      countP_map_false isStart2Ev PEv.exit2 (fun a => rfl),
      countP_replicate_false isStart2Ev PEv.sentinel rfl cpu]
    simp [List.countP_cons, List.countP_nil, List.length_range,
      show isStart2Ev PEv.mergeEv = false from rfl]

theorem default_numcores_autodetect_witness :
    resolveNumCores none 4 = 4 ∧ 0 < resolveNumCores none 4 ∧
      (pipelineEvents (resolveNumCores none 4) []).countP isStart1Ev = 4 ∧
      (pipelineEvents (resolveNumCores none 4) []).countP isStart2Ev = 4 :=
  default_numcores_autodetect 4 [] (by decide)
